import Mathlib

/-!
Verification of the rate-limit governed crypto-tracker server
(`src/README.md`, governed server variant: `fetchCoinGeckoData`,
`updateCurrentData`, `storeHistoryData` and the Express route handlers).

Modelling conventions:
* JS numbers that hold prices / market caps / percentage changes are
  modelled as `Rat`; timestamps (`Date.now()` milliseconds) as `Nat`.
* The upstream CoinGecko endpoint is modelled as an environment
  `env : Nat -> AttemptResult` giving the outcome of the i-th HTTP attempt
  of one governed fetch (success with a coin list, HTTP 429, or another
  transport/HTTP error).
* `await delay(ms)` advances the wall clock by `ms`; an HTTP attempt itself
  is modelled as instantaneous, so the only way time passes inside a
  governed fetch is through the backoff waits.
* MongoDB collections are lists of documents; `find().sort({rank: 1})`
  and `.sort({timestamp: 1})` are insertion sort on the respective key
  (a stable sort, like MongoDB's).
-/

namespace CryptoTracker

/-- A raw coin object as returned by the upstream market listing
(fields `id, name, symbol, current_price, market_cap,
price_change_percentage_24h, image, market_cap_rank`). -/
structure RawCoin where
  id : String
  name : String
  symbol : String
  current_price : Rat
  market_cap : Rat
  price_change_percentage_24h : Rat
  image : String
  market_cap_rank : Nat
deriving DecidableEq

/-- A document of the `CurrentData` Mongo collection. -/
structure CoinDoc where
  coinId : String
  name : String
  symbol : String
  price : Rat
  marketCap : Rat
  change24h : Rat
  image : String
  rank : Nat
  timestamp : Nat
deriving DecidableEq

/-- A document of the `HistoryData` Mongo collection. -/
structure HistoryDoc where
  coinId : String
  name : String
  symbol : String
  price : Rat
  marketCap : Rat
  change24h : Rat
  timestamp : Nat
deriving DecidableEq

/-- The two Mongo collections of the server. -/
structure Store where
  currentData : List CoinDoc
  historyData : List HistoryDoc
deriving DecidableEq

/-- The module-level rate limiting variables of the server:
`let lastFetchTime = 0` and `let fetchInProgress = false`. -/
structure GovState where
  lastFetchTime : Nat
  fetchInProgress : Bool
deriving DecidableEq

/-- `const MIN_FETCH_INTERVAL = 120000` (2 minutes, in ms). -/
def MIN_FETCH_INTERVAL : Nat := 120000

/-- `const maxRetries = 3` inside `fetchCoinGeckoData`. -/
def maxRetries : Nat := 3

/-- Outcome of a single upstream HTTP attempt of `axios.get`:
a successful response body, an HTTP 429, or any other error
(timeout / other HTTP status), carrying its status code. -/
inductive AttemptResult where
  | success (data : List RawCoin)
  | rateLimited
  | otherError (status : Nat)
deriving DecidableEq

/-- An error escaping the retry loop of `fetchCoinGeckoData`:
either the `throw new Error('Max retries exceeded')` after the loop,
or the rethrown non-429 error of the final attempt. -/
inductive FetchError where
  | maxRetriesExceeded
  | httpError (status : Nat)
deriving DecidableEq

/-- Result of the `while (retryCount < maxRetries)` loop body. -/
inductive LoopResult where
  | success (data : List RawCoin)
  | failure (e : FetchError)
deriving DecidableEq

/-- Observable trace of one run of the retry loop: its result, the backoff
delays awaited in order, the number of upstream HTTP attempts actually made,
and (when it succeeded) the wall-clock time at which the response arrived. -/
structure LoopTrace where
  result : LoopResult
  delays : List Nat
  calls : Nat
  successTime : Option Nat
deriving DecidableEq

/-- The `while (retryCount < maxRetries)` loop of `fetchCoinGeckoData`.
The first argument is the remaining loop budget `maxRetries - retryCount`
(the loop guard), `retryCount` the number of failed attempts so far
(also the index of the next attempt in `env`), `t` the wall clock.
On a 429 the code waits `30000 * 2 ^ (retryCount - 1)` ms after
incrementing `retryCount` (so `30000 * 2 ^ i` for attempt index `i`) and
loops; on another error it waits 10000 ms and loops if `retryCount` is
still below `maxRetries`, otherwise rethrows the error; when the guard
fails the code throws `Max retries exceeded`. -/
def fetchLoop (env : Nat → AttemptResult) : Nat → Nat → Nat → LoopTrace
  | 0, _, _ => ⟨.failure .maxRetriesExceeded, [], 0, none⟩
  | remaining + 1, retryCount, t =>
    match env retryCount with
    | .success d => ⟨.success d, [], 1, some t⟩
    | .rateLimited =>
        let w := 30000 * 2 ^ retryCount
        let tr := fetchLoop env remaining (retryCount + 1) (t + w)
        ⟨tr.result, w :: tr.delays, tr.calls + 1, tr.successTime⟩
    | .otherError s =>
        match remaining with
        | 0 => ⟨.failure (.httpError s), [], 1, none⟩
        | r + 1 =>
            let tr := fetchLoop env (r + 1) (retryCount + 1) (t + 10000)
            ⟨tr.result, 10000 :: tr.delays, tr.calls + 1, tr.successTime⟩

/-- Result of a whole `fetchCoinGeckoData` call: `null` (denied by the
minimum-interval or in-flight guard), a data payload, or a thrown error. -/
inductive FetchResult where
  | denied
  | ok (data : List RawCoin)
  | error (e : FetchError)
deriving DecidableEq

/-- Observable outcome of one `fetchCoinGeckoData()` call. -/
structure FetchRun where
  result : FetchResult
  gov : GovState
  delays : List Nat
  calls : Nat
  successTime : Option Nat
deriving DecidableEq

/-- `fetchCoinGeckoData()`: returns `null` when
`now - lastFetchTime < MIN_FETCH_INTERVAL` or when `fetchInProgress` is
already set (without touching any state); otherwise sets
`fetchInProgress = true`, runs the retry loop, on success assigns
`lastFetchTime = now` (the value captured at entry) and returns the data;
the `finally` block clears `fetchInProgress` on every exit path. -/
def fetchCoinGeckoData (env : Nat → AttemptResult) (now : Nat) (g : GovState) : FetchRun :=
  if now - g.lastFetchTime < MIN_FETCH_INTERVAL then
    ⟨.denied, g, [], 0, none⟩
  else if g.fetchInProgress then
    ⟨.denied, g, [], 0, none⟩
  else
    let tr := fetchLoop env maxRetries 0 now
    match tr.result with
    | .success d => ⟨.ok d, ⟨now, false⟩, tr.delays, tr.calls, tr.successTime⟩
    | .failure e => ⟨.error e, ⟨g.lastFetchTime, false⟩, tr.delays, tr.calls, none⟩

/-- whether a `FetchResult` is a thrown error. -/
def FetchResult.isError : FetchResult → Bool
  | .error _ => true
  | _ => false

/-- whether a `FetchResult` carries fetched data. -/
def FetchResult.isOk : FetchResult → Bool
  | .ok _ => true
  | _ => false

/-- `CurrentData.find().sort({rank: 1})` on a list of documents. -/
def sortByRank (l : List CoinDoc) : List CoinDoc :=
  List.insertionSort (fun a b => a.rank ≤ b.rank) l

/-- `HistoryData.find(...).sort({timestamp: 1})` on a list of documents. -/
def sortByCapturedAt (l : List HistoryDoc) : List HistoryDoc :=
  List.insertionSort (fun a b => a.timestamp ≤ b.timestamp) l

/-- the read side of the current snapshot: `CurrentData.find().sort({rank: 1})`. -/
def readCurrent (st : Store) : List CoinDoc :=
  sortByRank st.currentData

/-- `await CurrentData.deleteMany({})`. -/
def deleteManyCurrent (st : Store) : Store :=
  { st with currentData := [] }

/-- `await CurrentData.insertMany(rows)`. -/
def insertManyCurrent (rows : List CoinDoc) (st : Store) : Store :=
  { st with currentData := st.currentData ++ rows }

/-- the delete-all-then-insert-all pair of `updateCurrentData`. -/
def replaceCurrent (rows : List CoinDoc) (st : Store) : Store :=
  insertManyCurrent rows (deleteManyCurrent st)

/-- `await HistoryData.insertMany(rows)`. -/
def insertManyHistory (rows : List HistoryDoc) (st : Store) : Store :=
  { st with historyData := st.historyData ++ rows }

/-- the per-coin transform of `updateCurrentData`: uppercase the symbol and
attach `timestamp: new Date()` (the wall-clock time `t`). -/
def formatCoin (t : Nat) (c : RawCoin) : CoinDoc :=
  ⟨c.id, c.name, c.symbol.toUpper, c.current_price, c.market_cap,
    c.price_change_percentage_24h, c.image, c.market_cap_rank, t⟩

/-- the per-coin transform of `storeHistoryData` (no image / rank field). -/
def formatHistory (t : Nat) (c : RawCoin) : HistoryDoc :=
  ⟨c.id, c.name, c.symbol.toUpper, c.current_price, c.market_cap,
    c.price_change_percentage_24h, t⟩

/-- Result of `updateCurrentData`: the returned row list, or the rethrown
error of the catch block. -/
inductive UpdateResult where
  | ok (rows : List CoinDoc)
  | error (e : FetchError)
deriving DecidableEq

/-- Observable outcome of one `updateCurrentData()` call. -/
structure UpdateRun where
  result : UpdateResult
  gov : GovState
  store : Store
  calls : Nat
deriving DecidableEq

/-- `updateCurrentData()`: fetch through the governor; on `null` (denied)
return the stored snapshot sorted by rank, unchanged; on data, delete-all
then insert-all the formatted rows (timestamped with the wall clock at
which the fetch resolved) and return them; on a thrown error, read the
existing snapshot and return it when non-empty, otherwise rethrow. -/
def updateCurrentData (env : Nat → AttemptResult) (now : Nat) (g : GovState)
    (st : Store) : UpdateRun :=
  let fr := fetchCoinGeckoData env now g
  match fr.result with
  | .denied => ⟨.ok (readCurrent st), fr.gov, st, fr.calls⟩
  | .ok data =>
      let t := fr.successTime.getD now
      let rows := data.map (formatCoin t)
      ⟨.ok rows, fr.gov, replaceCurrent rows st, fr.calls⟩
  | .error e =>
      let existing := readCurrent st
      if existing.isEmpty then ⟨.error e, fr.gov, st, fr.calls⟩
      else ⟨.ok existing, fr.gov, st, fr.calls⟩

/-- Outcome of the `HistoryData.insertMany` write: success or a store error
thrown by the driver. -/
inductive WriteOutcome where
  | ok
  | storeError
deriving DecidableEq

/-- State left behind by one `storeHistoryData()` call. -/
structure HistoryRun where
  gov : GovState
  store : Store
  calls : Nat
deriving DecidableEq

/-- `storeHistoryData()`: fetch through the governor; on `null` (denied)
skip; on data, insert the formatted history rows (an `insertMany` store
error is caught and swallowed); a thrown fetch error is caught and
swallowed as well — the function never rejects. -/
def storeHistoryData (env : Nat → AttemptResult) (w : WriteOutcome) (now : Nat)
    (g : GovState) (st : Store) : HistoryRun :=
  let fr := fetchCoinGeckoData env now g
  match fr.result with
  | .denied => ⟨fr.gov, st, fr.calls⟩
  | .ok data =>
      let t := fr.successTime.getD now
      let rows := data.map (formatHistory t)
      match w with
      | .ok => ⟨fr.gov, insertManyHistory rows st, fr.calls⟩
      | .storeError => ⟨fr.gov, st, fr.calls⟩
  | .error _ => ⟨fr.gov, st, fr.calls⟩

/-- An HTTP response of the POST `/api/history` handler. -/
structure ApiResponse where
  status : Nat
  success : Bool
deriving DecidableEq

/-- Observable outcome of one POST `/api/history` request. -/
structure PostHistoryRun where
  resp : ApiResponse
  gov : GovState
  store : Store
deriving DecidableEq

/-- the POST `/api/history` handler: awaits `storeHistoryData()` and replies
`{success: true}`; its catch branch would reply 500 but `storeHistoryData`
resolves on every path, so the handler always takes the 200 branch. -/
def postHistoryHandler (env : Nat → AttemptResult) (w : WriteOutcome) (now : Nat)
    (g : GovState) (st : Store) : PostHistoryRun :=
  let hr := storeHistoryData env w now g st
  ⟨⟨200, true⟩, hr.gov, hr.store⟩

/-- An HTTP response of the GET `/api/coins` handler. -/
structure CoinsResponse where
  status : Nat
  success : Bool
  data : List CoinDoc
deriving DecidableEq

/-- Observable outcome of one GET `/api/coins` request. -/
structure CoinsRun where
  resp : CoinsResponse
  gov : GovState
  store : Store
deriving DecidableEq

/-- the GET `/api/coins` handler: read the sorted snapshot; when it is
empty or its first row is older than one hour, try `updateCurrentData`;
a thrown update error is rethrown (HTTP 500) only when the previously
read snapshot was empty, otherwise the stale rows are served with 200. -/
def getCoinsHandler (env : Nat → AttemptResult) (now : Nat) (g : GovState)
    (st : Store) : CoinsRun :=
  let currentData := readCurrent st
  let needsRefresh :=
    match currentData with
    | [] => true
    | c :: _ => decide (3600000 < now - c.timestamp)
  if needsRefresh then
    let ur := updateCurrentData env now g st
    match ur.result with
    | .ok rows => ⟨⟨200, true, rows⟩, ur.gov, ur.store⟩
    | .error _ =>
        if currentData.isEmpty then ⟨⟨500, false, []⟩, ur.gov, ur.store⟩
        else ⟨⟨200, true, currentData⟩, ur.gov, ur.store⟩
  else ⟨⟨200, true, currentData⟩, g, st⟩

/-- milliseconds per day, the unit of the `days` query parameter. -/
def msPerDay : Nat := 86400000

/-- The JSON body of a GET `/api/history/:coinId` response. -/
structure HistoryResponse where
  success : Bool
  data : List HistoryDoc
  coinId : String
  days : Nat
deriving DecidableEq

/-- the GET `/api/history/:coinId` handler: `days` defaults to 7; select
the records of `coinId` with `timestamp >= now - days` (calendar-day
subtraction modelled as `days * msPerDay` milliseconds), sorted ascending
by timestamp, echoing `coinId` and the parsed `days`. -/
def getHistoryHandler (now : Nat) (st : Store) (coinId : String)
    (daysQ : Option Nat) : HistoryResponse :=
  let days := daysQ.getD 7
  let startDate := now - days * msPerDay
  let rows := sortByCapturedAt
    (st.historyData.filter fun h => h.coinId == coinId && decide (startDate ≤ h.timestamp))
  ⟨true, rows, coinId, days⟩

/-- One entry of the `coins` array of a portfolio response. -/
structure PortfolioCoin where
  name : String
  symbol : String
  price : Rat
  change24h : Rat
  image : String
deriving DecidableEq

/-- The `data` object of a GET `/api/portfolio` response. -/
structure PortfolioData where
  totalValue : Rat
  avgChange : Rat
  coins : List PortfolioCoin
deriving DecidableEq

/-- The JSON body of a GET `/api/portfolio` response. -/
structure PortfolioResponse where
  success : Bool
  data : PortfolioData
deriving DecidableEq

/-- the GET `/api/portfolio` handler (governed server variant): with an
empty snapshot reply `{totalValue: 0, avgChange: 0, coins: []}` before any
aggregation; otherwise sum the market caps, average the 24h changes and
project the first six rows. -/
def getPortfolioHandler (st : Store) : PortfolioResponse :=
  let currentData := readCurrent st
  match currentData with
  | [] => ⟨true, ⟨0, 0, []⟩⟩
  | _ =>
    let totalMarketCap := currentData.foldl (fun s c => s + c.marketCap) 0
    let avgChange :=
      (currentData.foldl (fun s c => s + c.change24h) 0) / (currentData.length : Rat)
    let coins := (currentData.take 6).map fun c =>
      PortfolioCoin.mk c.name c.symbol c.price c.change24h c.image
    ⟨true, ⟨totalMarketCap, avgChange, coins⟩⟩

/-- A sample raw coin used as concrete input for witnesses. -/
def sampleRaw : RawCoin :=
  ⟨"bitcoin", "Bitcoin", "btc", 50000, 1000000000, 2, "bitcoin.png", 1⟩

/-- Ten sample raw coins ranked 1 through 10, lowercase symbols. -/
def sampleCoins : List RawCoin :=
  [⟨"bitcoin", "Bitcoin", "btc", 50000, 1000000000, 2, "i1", 1⟩,
   ⟨"ethereum", "Ethereum", "eth", 3000, 400000000, -1, "i2", 2⟩,
   ⟨"tether", "Tether", "usdt", 1, 110000000, 0, "i3", 3⟩,
   ⟨"binancecoin", "BNB", "bnb", 600, 90000000, 1, "i4", 4⟩,
   ⟨"solana", "Solana", "sol", 150, 70000000, 5, "i5", 5⟩,
   ⟨"ripple", "XRP", "xrp", 1, 60000000, -2, "i6", 6⟩,
   ⟨"usd-coin", "USDC", "usdc", 1, 35000000, 0, "i7", 7⟩,
   ⟨"dogecoin", "Dogecoin", "doge", 1, 25000000, 3, "i8", 8⟩,
   ⟨"cardano", "Cardano", "ada", 1, 20000000, -3, "i9", 9⟩,
   ⟨"tron", "TRON", "trx", 1, 15000000, 1, "i10", 10⟩]

/-- An upstream that answers 429 on the first attempt and then succeeds. -/
def rateLimitThenSuccess : Nat → AttemptResult :=
  fun i => if i = 0 then .rateLimited else .success [sampleRaw]

/-- A sample stored snapshot row. -/
def sampleDoc : CoinDoc :=
  ⟨"bitcoin", "Bitcoin", "BTC", 50000, 1000000000, 2, "bitcoin.png", 1, 100000⟩

/-- Sample history rows: two for bitcoin (one recent, one old) and one for
ethereum. -/
def sampleHistory : List HistoryDoc :=
  [⟨"bitcoin", "Bitcoin", "BTC", 50000, 1000000000, 2, 900000000⟩,
   ⟨"bitcoin", "Bitcoin", "BTC", 48000, 990000000, 1, 100000000⟩,
   ⟨"ethereum", "Ethereum", "ETH", 3000, 400000000, -1, 900000000⟩]

instance : IsTotal CoinDoc (fun a b => a.rank ≤ b.rank) :=
  ⟨fun a b => Nat.le_total a.rank b.rank⟩

instance : IsTrans CoinDoc (fun a b => a.rank ≤ b.rank) :=
  ⟨fun _ _ _ h h' => Nat.le_trans h h'⟩

instance : IsTotal HistoryDoc (fun a b => a.timestamp ≤ b.timestamp) :=
  ⟨fun a b => Nat.le_total a.timestamp b.timestamp⟩

instance : IsTrans HistoryDoc (fun a b => a.timestamp ≤ b.timestamp) :=
  ⟨fun _ _ _ h h' => Nat.le_trans h h'⟩

theorem sortByRank_perm (l : List CoinDoc) : List.Perm (sortByRank l) l :=
  List.perm_insertionSort _ l

theorem sortByRank_sorted (l : List CoinDoc) :
    List.Pairwise (fun a b => a.rank ≤ b.rank) (sortByRank l) :=
  List.sorted_insertionSort _ l

theorem sortByRank_eq_nil_iff {l : List CoinDoc} : sortByRank l = [] ↔ l = [] := by
  constructor
  · intro h
    have hp := sortByRank_perm l
    rw [h] at hp
    exact hp.symm.eq_nil
  · intro h; subst h; rfl

theorem sortByCapturedAt_perm (l : List HistoryDoc) :
    List.Perm (sortByCapturedAt l) l :=
  List.perm_insertionSort _ l

theorem sortByCapturedAt_sorted (l : List HistoryDoc) :
    List.Pairwise (fun a b => a.timestamp ≤ b.timestamp) (sortByCapturedAt l) :=
  List.sorted_insertionSort _ l

/-- Claim C1: a `fetchCoinGeckoData` call made while the in-flight flag is
set is denied: it makes no upstream attempt and leaves the governor state
untouched; and every granted call (any non-denied result — success, retry
exhaustion or a rethrown error) leaves the in-flight flag false, so at most
one upstream call is outstanding at any time. -/
theorem governor_single_inflight (env : Nat → AttemptResult) (now : Nat) (g : GovState) :
    (g.fetchInProgress = true →
       (fetchCoinGeckoData env now g).result = .denied
       ∧ (fetchCoinGeckoData env now g).calls = 0
       ∧ (fetchCoinGeckoData env now g).gov = g)
  ∧ ((fetchCoinGeckoData env now g).result ≠ .denied →
       (fetchCoinGeckoData env now g).gov.fetchInProgress = false) := by
  unfold fetchCoinGeckoData
  by_cases h1 : now - g.lastFetchTime < MIN_FETCH_INTERVAL
  · simp [h1]
  · simp only [if_neg h1]
    by_cases h2 : g.fetchInProgress = true
    · simp [h2]
    · simp only [if_neg h2]
      refine ⟨fun hc => absurd hc h2, fun _ => ?_⟩
      cases htr : (fetchLoop env maxRetries 0 now).result <;> simp [htr]

/-- Witness for C1 at a concrete in-flight state. -/
theorem governor_single_inflight_witness :
    (fetchCoinGeckoData (fun _ => .rateLimited) 500000 ⟨0, true⟩).result = .denied
    ∧ (fetchCoinGeckoData (fun _ => .rateLimited) 500000 ⟨0, true⟩).calls = 0 :=
  have h := (governor_single_inflight (fun _ => .rateLimited) 500000 ⟨0, true⟩).1 rfl
  ⟨h.1, h.2.1⟩

/-- Claim C2: a `updateCurrentData` call made within `MIN_FETCH_INTERVAL`
of the last successful fetch is denied; no upstream attempt is made, the
stored snapshot table is unchanged, the governor state is unchanged, and
the previously stored rows (sorted by rank) are returned without error. -/
theorem tooSoon_serves_stale (env : Nat → AttemptResult) (now : Nat) (g : GovState)
    (st : Store) (h : now - g.lastFetchTime < MIN_FETCH_INTERVAL) :
    (updateCurrentData env now g st).result = .ok (readCurrent st)
    ∧ (updateCurrentData env now g st).store = st
    ∧ (updateCurrentData env now g st).calls = 0
    ∧ (updateCurrentData env now g st).gov = g := by
  unfold updateCurrentData fetchCoinGeckoData
  simp [h]

/-- Witness for C2: a call at time 100 with a last fetch at time 0. -/
theorem tooSoon_serves_stale_witness :
    (updateCurrentData (fun _ => .success [sampleRaw]) 100 ⟨0, false⟩ ⟨[sampleDoc], []⟩).result
      = .ok (readCurrent ⟨[sampleDoc], []⟩)
    ∧ (updateCurrentData (fun _ => .success [sampleRaw]) 100 ⟨0, false⟩ ⟨[sampleDoc], []⟩).store
      = ⟨[sampleDoc], []⟩
    ∧ (updateCurrentData (fun _ => .success [sampleRaw]) 100 ⟨0, false⟩ ⟨[sampleDoc], []⟩).calls = 0 :=
  have h := tooSoon_serves_stale (fun _ => .success [sampleRaw]) 100 ⟨0, false⟩
    ⟨[sampleDoc], []⟩ (by decide)
  ⟨h.1, h.2.1, h.2.2.1⟩

/-- Claim C3: with the governor granting the call, if every upstream
attempt answers HTTP 429 the loop makes exactly `maxRetries = 3` attempts,
waits strictly increasing backoff delays (30s, 60s, 120s), then surfaces
`Max retries exceeded` without updating `lastFetchTime`; and if the
attempts before some attempt `k` within the ceiling all answer 429 while
attempt `k` succeeds, the fetched data is returned. -/
theorem governor_retry_backoff (env : Nat → AttemptResult) (now : Nat) (g : GovState)
    (hgrant : ¬ now - g.lastFetchTime < MIN_FETCH_INTERVAL)
    (hflag : g.fetchInProgress = false) :
    ((∀ i, i < maxRetries → env i = .rateLimited) →
       (fetchCoinGeckoData env now g).result = .error .maxRetriesExceeded
       ∧ (fetchCoinGeckoData env now g).calls = 3
       ∧ (fetchCoinGeckoData env now g).delays = [30000, 60000, 120000]
       ∧ List.Chain' (fun a b => a < b) (fetchCoinGeckoData env now g).delays
       ∧ (fetchCoinGeckoData env now g).gov.lastFetchTime = g.lastFetchTime)
  ∧ (∀ k d, k < maxRetries → (∀ i, i < k → env i = .rateLimited) →
       env k = .success d → (fetchCoinGeckoData env now g).result = .ok d) := by
  constructor
  · intro hall
    have h0 := hall 0 (by norm_num [maxRetries])
    have h1 := hall 1 (by norm_num [maxRetries])
    have h2 := hall 2 (by norm_num [maxRetries])
    have key : fetchLoop env maxRetries 0 now =
        ⟨.failure .maxRetriesExceeded, [30000, 60000, 120000], 3, none⟩ := by
      simp [maxRetries, fetchLoop, h0, h1, h2]
    unfold fetchCoinGeckoData
    rw [if_neg hgrant]
    simp [hflag, key]
  · intro k d hk hbefore hkenv
    unfold fetchCoinGeckoData
    rw [if_neg hgrant]
    have hk3 : k < 3 := by simpa [maxRetries] using hk
    interval_cases k
    · have key : fetchLoop env maxRetries 0 now = ⟨.success d, [], 1, some now⟩ := by
        simp [maxRetries, fetchLoop, hkenv]
      simp [hflag, key]
    · have h0 := hbefore 0 (by norm_num)
      have key : fetchLoop env maxRetries 0 now
          = ⟨.success d, [30000], 2, some (now + 30000)⟩ := by
        simp [maxRetries, fetchLoop, h0, hkenv]
      simp [hflag, key]
    · have h0 := hbefore 0 (by norm_num)
      have h1 := hbefore 1 (by norm_num)
      have key : fetchLoop env maxRetries 0 now
          = ⟨.success d, [30000, 60000], 3, some (now + 30000 + 60000)⟩ := by
        simp [maxRetries, fetchLoop, h0, h1, hkenv]
      simp [hflag, key]

/-- Witness for C3: an upstream answering 429 on every attempt, called at
time 200000 with a fresh governor. -/
theorem governor_retry_backoff_witness :
    (fetchCoinGeckoData (fun _ => .rateLimited) 200000 ⟨0, false⟩).result
      = .error .maxRetriesExceeded
    ∧ (fetchCoinGeckoData (fun _ => .rateLimited) 200000 ⟨0, false⟩).calls = 3
    ∧ (fetchCoinGeckoData (fun _ => .rateLimited) 200000 ⟨0, false⟩).delays
      = [30000, 60000, 120000]
    ∧ (fetchCoinGeckoData (fun _ => .rateLimited) 200000 ⟨0, false⟩).gov.lastFetchTime = 0 :=
  have h := (governor_retry_backoff (fun _ => .rateLimited) 200000 ⟨0, false⟩
    (by decide) rfl).1 (fun _ _ => rfl)
  ⟨h.1, h.2.1, h.2.2.1, h.2.2.2.2⟩

/-- Counterexample for C4: upstream answers 429 once (30s backoff) and then
succeeds, so the response arrives at wall-clock time 230000, yet the code
records `lastFetchTime = now`, the value 200000 captured at entry — not the
time of the successful fetch. -/
theorem fetch_success_time_counterexample :
    (fetchCoinGeckoData rateLimitThenSuccess 200000 ⟨0, false⟩).result = .ok [sampleRaw]
    ∧ (fetchCoinGeckoData rateLimitThenSuccess 200000 ⟨0, false⟩).successTime = some 230000
    ∧ (fetchCoinGeckoData rateLimitThenSuccess 200000 ⟨0, false⟩).gov.lastFetchTime = 200000
    ∧ (200000 : Nat) ≠ 230000 :=
  ⟨rfl, rfl, rfl, by decide⟩

/-- Claim C4 (amended): on every successful governed fetch the code records
`lastFetchTime = now`, the wall-clock value captured at entry to
`fetchCoinGeckoData` (before any backoff delays), clears the in-flight
flag, and returns the fetched data. -/
theorem fetch_success_records_entry_time (env : Nat → AttemptResult) (now : Nat)
    (g : GovState) (d : List RawCoin)
    (h : (fetchCoinGeckoData env now g).result = .ok d) :
    (fetchCoinGeckoData env now g).gov.lastFetchTime = now
    ∧ (fetchCoinGeckoData env now g).gov.fetchInProgress = false := by
  unfold fetchCoinGeckoData at h ⊢
  by_cases h1 : now - g.lastFetchTime < MIN_FETCH_INTERVAL
  · simp [h1] at h
  · by_cases h2 : g.fetchInProgress = true
    · simp [h1, h2] at h
    · rw [if_neg h1] at h ⊢
      simp only [h2, if_false, Bool.false_eq_true] at h ⊢
      cases htr : (fetchLoop env maxRetries 0 now).result <;> simp [htr] at h ⊢

/-- Witness for C4 (amended): a first-attempt success. -/
theorem fetch_success_records_entry_time_witness :
    (fetchCoinGeckoData (fun _ => .success [sampleRaw]) 200000 ⟨0, false⟩).gov.lastFetchTime
      = 200000
    ∧ (fetchCoinGeckoData (fun _ => .success [sampleRaw]) 200000 ⟨0, false⟩).gov.fetchInProgress
      = false :=
  fetch_success_records_entry_time (fun _ => .success [sampleRaw]) 200000 ⟨0, false⟩
    [sampleRaw] rfl

/-- Claim C5: GET `/api/coins` answers HTTP 500 exactly in the cold-start
case — empty stored snapshot and a refresh that fails with a thrown error;
whenever a stored snapshot exists the handler answers 200 with
`success: true`, and when additionally the refresh was denied or failed
(did not produce fresh data) the body carries the stored rows. -/
theorem coins_cold_start_500 (env : Nat → AttemptResult) (now : Nat) (g : GovState)
    (st : Store) :
    ((getCoinsHandler env now g st).resp.status = 500
       ↔ st.currentData = [] ∧ (fetchCoinGeckoData env now g).result.isError = true)
  ∧ (st.currentData ≠ [] →
       (getCoinsHandler env now g st).resp.status = 200
       ∧ (getCoinsHandler env now g st).resp.success = true)
  ∧ (st.currentData ≠ [] → (fetchCoinGeckoData env now g).result.isOk = false →
       (getCoinsHandler env now g st).resp.data = readCurrent st) := by
  unfold getCoinsHandler updateCurrentData
  cases hcur : readCurrent st with
  | nil =>
    have hst : st.currentData = [] := sortByRank_eq_nil_iff.mp hcur
    cases hfr : (fetchCoinGeckoData env now g).result with
    | denied => simp [hcur, hfr, hst, FetchResult.isError]
    | ok d => simp [hcur, hfr, hst, FetchResult.isError]
    | error e => simp [hcur, hfr, hst, FetchResult.isError]
  | cons c rest =>
    have hst : st.currentData ≠ [] := by
      intro hh
      rw [show readCurrent st = sortByRank st.currentData from rfl, hh] at hcur
      exact absurd hcur (by simp [sortByRank])
    by_cases hstale : 3600000 < now - c.timestamp
    · cases hfr : (fetchCoinGeckoData env now g).result with
      | denied => simp [hcur, hfr, hstale, hst, FetchResult.isError]
      | ok d => simp [hcur, hfr, hstale, hst, FetchResult.isError, FetchResult.isOk]
      | error e => simp [hcur, hfr, hstale, hst, FetchResult.isError]
    · simp [hcur, hstale, hst, FetchResult.isError]

/-- Witness for C5: with a stored row and an upstream failing every
attempt, the handler still answers 200 with the stored row; the 500 case
is exercised via the iff at the empty store. -/
theorem coins_cold_start_500_witness :
    (getCoinsHandler (fun _ => .otherError 500) 7200000 ⟨0, false⟩ ⟨[sampleDoc], []⟩).resp.status
      = 200
    ∧ (getCoinsHandler (fun _ => .otherError 500) 7200000 ⟨0, false⟩ ⟨[sampleDoc], []⟩).resp.data
      = readCurrent ⟨[sampleDoc], []⟩
    ∧ (getCoinsHandler (fun _ => .otherError 500) 200000 ⟨0, false⟩ ⟨[], []⟩).resp.status = 500 :=
  have h1 := coins_cold_start_500 (fun _ => .otherError 500) 7200000 ⟨0, false⟩ ⟨[sampleDoc], []⟩
  have h2 := coins_cold_start_500 (fun _ => .otherError 500) 200000 ⟨0, false⟩ ⟨[], []⟩
  ⟨(h1.2.1 (by simp)).1, h1.2.2 (by simp) rfl, h2.1.mpr ⟨rfl, rfl⟩⟩

/-- Claim C6: when the governor grants the call and the upstream answers on
the first attempt with a list of ten coins ranked 1 through 10,
`updateCurrentData` returns exactly the ten transformed rows and the
subsequent snapshot read returns them and no others, in strictly ascending
rank order, each with the symbol uppercased (via `formatCoin`) and the
capture timestamp attached. -/
theorem refresh_ten_coins (env : Nat → AttemptResult) (now : Nat) (g : GovState)
    (st : Store) (data : List RawCoin)
    (henv : env 0 = .success data)
    (hgrant : ¬ now - g.lastFetchTime < MIN_FETCH_INTERVAL)
    (hflag : g.fetchInProgress = false)
    (hlen : data.length = 10)
    (hrank : ∀ i, (h : i < data.length) → data[i].market_cap_rank = i + 1) :
    (updateCurrentData env now g st).result = .ok (data.map (formatCoin now))
    ∧ readCurrent (updateCurrentData env now g st).store = data.map (formatCoin now)
    ∧ (readCurrent (updateCurrentData env now g st).store).length = 10
    ∧ List.Pairwise (fun a b => a.rank < b.rank)
        (readCurrent (updateCurrentData env now g st).store)
    ∧ ∀ r ∈ readCurrent (updateCurrentData env now g st).store,
        r.timestamp = now ∧ ∃ c ∈ data, r = formatCoin now c := by
  have key : fetchLoop env maxRetries 0 now = ⟨.success data, [], 1, some now⟩ := by
    simp [maxRetries, fetchLoop, henv]
  have hfetch : fetchCoinGeckoData env now g = ⟨.ok data, ⟨now, false⟩, [], 1, some now⟩ := by
    unfold fetchCoinGeckoData
    rw [if_neg hgrant]
    simp [hflag, key]
  have hup : updateCurrentData env now g st =
      ⟨.ok (data.map (formatCoin now)), ⟨now, false⟩,
        replaceCurrent (data.map (formatCoin now)) st, 1⟩ := by
    unfold updateCurrentData
    rw [hfetch]
    rfl
  have hcd : (updateCurrentData env now g st).store.currentData = data.map (formatCoin now) := by
    rw [hup]
    simp [replaceCurrent, insertManyCurrent, deleteManyCurrent]
  have hpair_lt : List.Pairwise (fun a b : CoinDoc => a.rank < b.rank)
      (data.map (formatCoin now)) := by
    rw [List.pairwise_iff_getElem]
    intro i j hi hj hij
    have hi' : i < data.length := by simpa using hi
    have hj' : j < data.length := by simpa using hj
    simp only [List.getElem_map, formatCoin]
    rw [hrank i hi', hrank j hj']
    omega
  have hpair_le : List.Pairwise (fun a b : CoinDoc => a.rank ≤ b.rank)
      (data.map (formatCoin now)) :=
    List.Pairwise.imp (fun hab => Nat.le_of_lt hab) hpair_lt
  have hsortid : sortByRank (data.map (formatCoin now)) = data.map (formatCoin now) :=
    List.Sorted.insertionSort_eq hpair_le
  have hread : readCurrent (updateCurrentData env now g st).store = data.map (formatCoin now) := by
    unfold readCurrent
    rw [hcd]
    exact hsortid
  refine ⟨by rw [hup], hread, by rw [hread]; simp [hlen], by rw [hread]; exact hpair_lt, ?_⟩
  intro r hr
  rw [hread] at hr
  obtain ⟨c, hc, rfl⟩ := List.mem_map.mp hr
  exact ⟨rfl, c, hc, rfl⟩

/-- Witness for C6 at ten concrete coins ranked 1 through 10. -/
theorem refresh_ten_coins_witness :
    (updateCurrentData (fun _ => .success sampleCoins) 200000 ⟨0, false⟩ ⟨[], []⟩).result
      = .ok (sampleCoins.map (formatCoin 200000))
    ∧ (readCurrent (updateCurrentData (fun _ => .success sampleCoins) 200000
        ⟨0, false⟩ ⟨[], []⟩).store).length = 10 :=
  have h := refresh_ten_coins (fun _ => .success sampleCoins) 200000 ⟨0, false⟩ ⟨[], []⟩
    sampleCoins rfl (by decide) rfl (by decide) (by decide)
  ⟨h.1, h.2.2.1⟩

/-- Claim C7: the delete-all-then-insert-all `replaceCurrent` is idempotent
in effect — applying it twice with the same row sequence leaves
`readCurrent` returning the same result as applying it once, namely that
sequence ordered by rank ascending (a permutation of the input, sorted). -/
theorem replaceCurrent_idempotent (rows : List CoinDoc) (st : Store) :
    readCurrent (replaceCurrent rows (replaceCurrent rows st))
      = readCurrent (replaceCurrent rows st)
    ∧ readCurrent (replaceCurrent rows st) = sortByRank rows
    ∧ List.Perm (readCurrent (replaceCurrent rows st)) rows
    ∧ List.Pairwise (fun a b => a.rank ≤ b.rank) (readCurrent (replaceCurrent rows st)) := by
  have h1 : readCurrent (replaceCurrent rows st) = sortByRank rows := by
    simp [readCurrent, replaceCurrent, insertManyCurrent, deleteManyCurrent]
  have h2 : readCurrent (replaceCurrent rows (replaceCurrent rows st)) = sortByRank rows := by
    simp [readCurrent, replaceCurrent, insertManyCurrent, deleteManyCurrent]
  refine ⟨h2.trans h1.symm, h1, ?_, ?_⟩
  · rw [h1]; exact sortByRank_perm rows
  · rw [h1]; exact sortByRank_sorted rows

/-- Claim C8: GET `/api/history/:coinId` echoes the coin id and the parsed
`days` (defaulting to 7), and its data is exactly the stored history
records of that coin with `timestamp >= now - days` (a permutation of that
filter of the history table), sorted ascending by capture timestamp. -/
theorem history_endpoint_spec (now : Nat) (st : Store) (coinId : String)
    (daysQ : Option Nat) :
    (getHistoryHandler now st coinId daysQ).success = true
    ∧ (getHistoryHandler now st coinId daysQ).coinId = coinId
    ∧ (getHistoryHandler now st coinId daysQ).days = daysQ.getD 7
    ∧ List.Perm (getHistoryHandler now st coinId daysQ).data
        (st.historyData.filter fun h =>
          h.coinId == coinId && decide (now - (daysQ.getD 7) * msPerDay ≤ h.timestamp))
    ∧ List.Pairwise (fun a b => a.timestamp ≤ b.timestamp)
        (getHistoryHandler now st coinId daysQ).data
    ∧ ∀ h ∈ (getHistoryHandler now st coinId daysQ).data,
        h.coinId = coinId ∧ now - (daysQ.getD 7) * msPerDay ≤ h.timestamp := by
  refine ⟨rfl, rfl, rfl, sortByCapturedAt_perm _, sortByCapturedAt_sorted _, ?_⟩
  intro h hmem
  have hmem' : h ∈ st.historyData.filter fun h =>
      h.coinId == coinId && decide (now - (daysQ.getD 7) * msPerDay ≤ h.timestamp) :=
    (sortByCapturedAt_perm _).mem_iff.mp hmem
  have hf := (List.mem_filter.mp hmem').2
  simp only [Bool.and_eq_true, beq_iff_eq, decide_eq_true_eq] at hf
  exact hf

/-- Witness for C8 at a concrete history table: the recent bitcoin record
is a member of the response and satisfies the window predicate. -/
theorem history_endpoint_spec_witness :
    (getHistoryHandler 900000000 ⟨[], sampleHistory⟩ "bitcoin" none).days = 7
    ∧ (getHistoryHandler 900000000 ⟨[], sampleHistory⟩ "bitcoin" none).success = true
    ∧ ((⟨"bitcoin", "Bitcoin", "BTC", 50000, 1000000000, 2, 900000000⟩ : HistoryDoc).coinId
        = "bitcoin"
      ∧ 900000000 - 7 * msPerDay
        ≤ (⟨"bitcoin", "Bitcoin", "BTC", 50000, 1000000000, 2, 900000000⟩ : HistoryDoc).timestamp) :=
  have h := history_endpoint_spec 900000000 ⟨[], sampleHistory⟩ "bitcoin" none
  ⟨h.2.2.1, h.1, h.2.2.2.2.2 _ (by decide)⟩

/-- Claim C9: GET `/api/portfolio` on an empty snapshot store answers
success with `{totalValue: 0, avgChange: 0, coins: []}` without reaching
the aggregation (so no division by the zero coin count occurs). -/
theorem portfolio_empty_snapshot (st : Store) (h : st.currentData = []) :
    getPortfolioHandler st = ⟨true, ⟨0, 0, []⟩⟩ := by
  unfold getPortfolioHandler
  simp [readCurrent, sortByRank, h, List.insertionSort]

/-- Witness for C9 at the empty store. -/
theorem portfolio_empty_snapshot_witness :
    getPortfolioHandler ⟨[], []⟩ = ⟨true, ⟨0, 0, []⟩⟩ :=
  portfolio_empty_snapshot ⟨[], []⟩ rfl

/-- Claim C10: POST `/api/history` always answers HTTP 200 with
`success: true`, for every upstream behaviour and every insert outcome,
because `storeHistoryData` swallows every failure; when the fetch is
denied by the governor, or the insert fails, or the fetch throws, the
history table is left unchanged. -/
theorem postHistory_always_succeeds (env : Nat → AttemptResult) (w : WriteOutcome)
    (now : Nat) (g : GovState) (st : Store) :
    (postHistoryHandler env w now g st).resp = ⟨200, true⟩
    ∧ ((fetchCoinGeckoData env now g).result = .denied →
        (postHistoryHandler env w now g st).store.historyData = st.historyData)
    ∧ (w = .storeError →
        (postHistoryHandler env w now g st).store.historyData = st.historyData)
    ∧ ((fetchCoinGeckoData env now g).result.isError = true →
        (postHistoryHandler env w now g st).store.historyData = st.historyData) := by
  unfold postHistoryHandler storeHistoryData
  cases hfr : (fetchCoinGeckoData env now g).result with
  | denied => simp [hfr]
  | ok d => cases w <;> simp [hfr, FetchResult.isError, insertManyHistory]
  | error e => simp [hfr]

/-- Witness for C10: a request while another fetch is in flight leaves the
history table unchanged and still answers 200. -/
theorem postHistory_always_succeeds_witness :
    (postHistoryHandler (fun _ => .rateLimited) .ok 500000 ⟨0, true⟩
      ⟨[], sampleHistory⟩).resp = ⟨200, true⟩
    ∧ (postHistoryHandler (fun _ => .rateLimited) .ok 500000 ⟨0, true⟩
        ⟨[], sampleHistory⟩).store.historyData = sampleHistory :=
  have h := postHistory_always_succeeds (fun _ => .rateLimited) .ok 500000 ⟨0, true⟩
    ⟨[], sampleHistory⟩
  ⟨h.1, h.2.1 rfl⟩

end CryptoTracker
